import Mathlib

/-!
# CaptainPlaneEd: resources, the byte-range copier and the blank-file synthesiser

A shallow embedding of `src/Resource.cpp` and `src/compression/ReadPlain.cpp`.

Modelling conventions.

* Integers follow the LP64 platforms the tool is built for: `int` has 32 bits
  and `long` has 64.  A value of either type is an `Int`; every conversion to
  `int` and every `int` operation that can leave the range goes through
  `wrapInt`, every `long` operation through `wrapLong` (two's complement, which
  is what the compiled code does; the C standard leaves signed overflow
  undefined).  C integer division is `Int.tdiv` (truncation).
* A byte is a `Nat`; a file's content is a `List Nat`.
* The file system keeps the content of each location, says which location a
  path names (so that `map.bin` and `./map.bin` can be one file), and says
  which renames the system lets through.
* A `FILE*` opened for writing is a content together with a position.
  `Resource.cpp` hands its destination argument straight to `ReadPlain` and
  `CheckCreateBlankFile`, whose definitions take a `FILE*`; the destination of a
  load is therefore a stream throughout.
* A call without a result is `none`: undefined behaviour (reading the
  uninitialised result of a `switch` with no matching case, `malloc` of a
  negative size followed by `fread`, division by zero) and a loop that does not
  terminate.
* `exit(1)` ends a run with `Termination.exited 1`; the state reached at that
  point is kept so that it can be inspected.
* `SDL_ShowSimpleMessageBox` appends a `MessageBox` to the list of boxes shown.
-/

namespace CaptainPlaneEd

/-! ## Machine integers -/

/-- The value an integer has once it is stored in an `int` (32 bits, two's
complement). -/
def wrapInt (n : Int) : Int := (n + 2147483648) % 4294967296 - 2147483648

/-- The value an integer has once it is stored in a `long` (64 bits, two's
complement). -/
def wrapLong (n : Int) : Int :=
  (n + 9223372036854775808) % 18446744073709551616 - 9223372036854775808

/-- The product of two `int` values, `a * b` in C. -/
def imul (a b : Int) : Int := wrapInt (a * b)

/-- The sum of two `long` values, `a + b` in C. -/
def ladd (a b : Int) : Int := wrapLong (a + b)

/-- The largest `int`. -/
def INT_MAX : Int := 2147483647

/-! ## Files and streams -/

/-- The file system.  `content` gives each location no file or a file with a
list of bytes; `resolve` gives the location a path names, so two paths name
the same file when they resolve to the same location; `renames old new` says
whether the system lets a file move from the location `old` to the location
`new` (the destination has a name, its directory exists, it is on the same
device). -/
structure FileSystem where
  content : String → Option (List Nat)
  resolve : String → String
  renames : String → String → Bool

/-- The C function `fopen(path, "rb")`: the content of the file the path names,
or `none` where `fopen` returns `NULL`. -/
def FileSystem.fopen (fs : FileSystem) (path : String) : Option (List Nat) :=
  fs.content (fs.resolve path)

/-- The file system without any file: every path is its own location, and a
rename goes through unless the destination is the empty path. -/
def FileSystem.empty : FileSystem :=
  { content := fun _ => none, resolve := fun p => p, renames := fun _ new => new != "" }

/-- The file system holding one file, otherwise as `FileSystem.empty`. -/
def FileSystem.single (path : String) (content : List Nat) : FileSystem :=
  { FileSystem.empty with content := fun l => if l = path then some content else none }

/-- A file system holding a working file `work.tmp`, a destination `map.bin`
and a ROM `rom.bin`, in which `./map.bin` is another path of `map.bin`. -/
def FileSystem.project : FileSystem :=
  { content := fun l => if l = "work.tmp" then some [1, 2, 3]
      else if l = "map.bin" then some [9] else if l = "rom.bin" then some [4, 5] else none,
    resolve := fun p => if p = "./map.bin" then "map.bin" else p,
    renames := fun _ new => new != "" }

/-- An output stream (`FILE*`): the bytes of the file and the file position. -/
structure FILE where
  data : List Nat
  pos : Nat
  deriving DecidableEq, Repr

/-- A freshly created, empty output stream. -/
def FILE.empty : FILE := { data := [], pos := 0 }

/-- Writing `bytes` at the file position: the bytes overwrite what is there,
the file grows when the write passes its end (a gap before the position reads
as zero), and the position moves past the written bytes.  Writing nothing
changes nothing. -/
def fwrite (bytes : List Nat) (f : FILE) : FILE :=
  if bytes = [] then f
  else
    { data := f.data.take f.pos ++ List.replicate (f.pos - f.data.length) 0 ++ bytes
                ++ f.data.drop (f.pos + bytes.length),
      pos := f.pos + bytes.length }

/-- The C function `fputc(c, f)`. -/
def fputc (c : Nat) (f : FILE) : FILE := fwrite [c] f

/-- The C function `rewind(f)`. -/
def rewind (f : FILE) : FILE := { f with pos := 0 }

/-- The C function `remove(path)`: the file the path names is deleted; without
a file the call fails and changes nothing. -/
def remove (fs : FileSystem) (path : String) : FileSystem :=
  { fs with content := fun l => if l = fs.resolve path then none else fs.content l }

/-- The C function `rename(old, new)`: fails and changes nothing when `old`
names no file or the system does not let the rename through; otherwise the
location of `new` holds the content of `old`, whose location is free (nothing
changes when both name the same file). -/
def rename (fs : FileSystem) (old new : String) : FileSystem :=
  match fs.content (fs.resolve old) with
  | none => fs
  | some bytes =>
    if fs.renames (fs.resolve old) (fs.resolve new) then
      { fs with
        content := fun l =>
          if l = fs.resolve new then some bytes
          else if l = fs.resolve old then none else fs.content l }
    else fs

/-! ## src/compression/ReadPlain.cpp -/

/-- The content of the buffer after `malloc(n)` and `fread(buffer, n, 1, src)`
when the source delivered the bytes `got`: the bytes read, followed by what the
uninitialised block held. -/
def freadBuffer (uninit : Nat → Nat) (n : Nat) (got : List Nat) : List Nat :=
  got ++ (List.range (n - got.length)).map (fun i => uninit (got.length + i))

/-- `long ReadPlain(const char *srcfile, FILE* dst, long Pointer, int length)`.
`uninit` is the content of freshly allocated memory. -/
def ReadPlain (fs : FileSystem) (uninit : Nat → Nat) (srcfile : String) (dst : FILE)
    (Pointer : Int) (length : Int) : Option (Int × FILE) :=
  match fs.fopen srcfile with
  | none => some (-1, dst)
  | some src =>
    if length = 0 ∧ Pointer ≠ 0 then some (-1, dst)
    else
      -- `fseek(src, 0, SEEK_END); length = ftell(src); rewind(src);`
      -- the `long` of `ftell` is stored in the `int length`
      let length : Int := if length = 0 then wrapInt (src.length : Int) else length
      -- `fseek(src, Pointer, SEEK_SET)`: a negative offset fails, the position stays 0
      let start : Nat := Pointer.toNat
      -- `malloc(length)` with a negative `length`, then `fread` into the result
      if length < 0 then none
      else
        let got := (src.drop start).take length.toNat
        some (length, fwrite (freadBuffer uninit length.toNat got) (rewind dst))

/-- The loop `for (int i = 0; i < bound; i++) fputc(c, dst);` run for `n` rounds. -/
def fputcLoop (c : Nat) : Nat → FILE → FILE
  | 0, dst => dst
  | n + 1, dst => fputcLoop c n (fputc c dst)

/-- `bool CheckCreateBlankFile(char *srcfile, FILE* dst, long Pointer, int length)`.
The loop `for (int i = 0; i < Pointer + length; i++)` compares the `int`
counter with a `long` bound: a bound above `INT_MAX` is never reached, the
counter wraps and the loop does not end; any other bound is reached after as
many rounds as it says (none when it is negative). -/
def CheckCreateBlankFile (fs : FileSystem) (srcfile : String) (dst : FILE)
    (Pointer : Int) (length : Int) : Option (Bool × FILE) :=
  match fs.fopen srcfile with
  | some _ => some (false, dst)
  | none =>
    if INT_MAX < ladd Pointer length then none
    else some (true, fputcLoop 0 (ladd Pointer length).toNat dst)

/-! ## src/Resource.cpp -/

/-- Modelled from the spec: `enum class comprType` is declared in `Resource.h`,
which is not among the sources; the constructors are the ones `Resource.cpp`
names, which are the closed set of the data model. -/
inductive comprType where
  | NONE
  | ENIGMA
  | KOSINSKI
  | MODULED_KOSINSKI
  | NEMESIS
  | KID_CHAMELEON
  | COMPER
  | SAXMAN
  | INVALID
  deriving DecidableEq, Repr

/-- Modelled from the spec: the codecs (`FW_KENSC` and `KidDec`) are external
collaborators whose sources are absent.  Each is a parameter with the arguments
`Resource.cpp` passes; a decoder returns its result and the destination stream
it leaves, an encoder returns the file system it leaves. -/
structure Codecs where
  enigma_decode : FileSystem → String → FILE → Int → Bool → Int × FILE
  kosinski_decode : FileSystem → String → FILE → Int → Bool → Nat → Int × FILE
  nemesis_decode : FileSystem → String → FILE → Int → Int → Int × FILE
  KidDec : FileSystem → String → FILE → Int → Int × FILE
  comper_decode : FileSystem → String → FILE → Int → Int × FILE
  saxman_decode : FileSystem → String → FILE → Int → Int → Int × FILE
  enigma_encode : FileSystem → String → String → Bool → FileSystem
  kosinski_encode : FileSystem → String → String → Bool → Int → Nat → FileSystem
  nemesis_encode : FileSystem → String → String → FileSystem
  comper_encode : FileSystem → String → String → FileSystem
  saxman_encode : FileSystem → String → String → Bool → FileSystem

/-- Codecs whose decoders all report `d` and leave the destination alone, and
whose encoders leave the file system alone. -/
def Codecs.const (d : Int) : Codecs where
  enigma_decode := fun _ _ dst _ _ => (d, dst)
  kosinski_decode := fun _ _ dst _ _ _ => (d, dst)
  nemesis_decode := fun _ _ dst _ _ => (d, dst)
  KidDec := fun _ _ dst _ => (d, dst)
  comper_decode := fun _ _ dst _ => (d, dst)
  saxman_decode := fun _ _ dst _ _ => (d, dst)
  enigma_encode := fun fs _ _ _ => fs
  kosinski_encode := fun fs _ _ _ _ _ => fs
  nemesis_encode := fun fs _ _ => fs
  comper_encode := fun fs _ _ => fs
  saxman_encode := fun fs _ _ _ => fs

/-- The constant `FILE_MAP_DEFAULT`. -/
def FILE_MAP_DEFAULT : String := "MapDefault.bin"

/-- Modelled from the spec: `class Resource` is declared in `Resource.h`, which
is not among the sources; the fields are the ones `Resource.cpp` reads and
writes. -/
structure Resource where
  name : String
  offset : Int
  length : Int
  compression : comprType
  kosinski_module_size : Int
  deriving DecidableEq, Repr

/-- Modelled from the spec: `class ResourceArt` of the absent `Resource.h`. -/
structure ResourceArt extends Resource where
  tileAmount : Int
  deriving DecidableEq, Repr

/-- Modelled from the spec: `class ResourceMap` of the absent `Resource.h`. -/
structure ResourceMap extends Resource where
  xSize : Int
  ySize : Int
  saveName : String
  deriving DecidableEq, Repr

/-- Modelled from the spec: `class ResourcePal` of the absent `Resource.h`. -/
structure ResourcePal extends Resource
  deriving DecidableEq, Repr

/-- The constructor `Resource::Resource`. -/
def Resource.new : Resource :=
  { name := "", offset := 0, length := 0, compression := comprType.INVALID,
    kosinski_module_size := 0x1000 }

/-- The constructor `ResourceArt::ResourceArt`. -/
def ResourceArt.new : ResourceArt := { Resource.new with tileAmount := 0 }

/-- The constructor `ResourceMap::ResourceMap`. -/
def ResourceMap.new : ResourceMap := { Resource.new with xSize := 0, ySize := 0, saveName := "" }

/-- The constructor `ResourcePal::ResourcePal`. -/
def ResourcePal.new : ResourcePal := { Resource.new with compression := comprType.NONE }

/-- The three severities of `SDL_ShowSimpleMessageBox`. -/
inductive Severity where
  | ERROR
  | WARNING
  | INFORMATION
  deriving DecidableEq, Repr

/-- One call of `SDL_ShowSimpleMessageBox(flags, title, message, NULL)`. -/
structure MessageBox where
  flags : Severity
  title : String
  message : String
  deriving DecidableEq, Repr

/-- How a call ended: it returned, or the process left through `exit`. -/
inductive Termination where
  | returned
  | exited (status : Int)
  deriving DecidableEq, Repr

/-- The state a `Load` ends in: how it ended, the resource (`this`), the
destination stream, and the message boxes shown, in order. -/
structure Run (R : Type) where
  term : Termination
  self : R
  dst : FILE
  shown : List MessageBox
  deriving DecidableEq, Repr

/-- `void Resource::CompressFile(const char* const srcfile, const char* const dstfile)`. -/
def Resource.CompressFile (c : Codecs) (r : Resource) (fs : FileSystem)
    (srcfile dstfile : String) : FileSystem :=
  match r.compression with
  | comprType.NONE => rename (remove fs dstfile) srcfile dstfile
  | comprType.ENIGMA => c.enigma_encode fs srcfile dstfile false
  | comprType.KOSINSKI => c.kosinski_encode fs srcfile dstfile false r.kosinski_module_size 16
  | comprType.MODULED_KOSINSKI =>
      c.kosinski_encode fs srcfile dstfile true r.kosinski_module_size 16
  | comprType.NEMESIS => c.nemesis_encode fs srcfile dstfile
  | comprType.COMPER => c.comper_encode fs srcfile dstfile
  | comprType.SAXMAN => c.saxman_encode fs srcfile dstfile false
  | _ => fs

/-- `void Resource::Save(const char* const filename, const char* const dstfilename)`. -/
def Resource.Save (c : Codecs) (r : Resource) (fs : FileSystem)
    (filename dstfilename : String) : FileSystem :=
  remove (r.CompressFile c fs filename dstfilename) filename

/-- The assignment of a decoder's result to `int decompressed_length`. -/
def toIntResult (p : Int × FILE) : Int × FILE := (wrapInt p.1, p.2)

/-- `long Resource::DecompressToFile(const char* const dstfile)`.  Each result
is stored in the local `int decompressed_length`.  With `INVALID` no case of
the `switch` matches and the uninitialised local is returned. -/
def Resource.DecompressToFile (c : Codecs) (fs : FileSystem) (uninit : Nat → Nat)
    (r : Resource) (dstfile : FILE) : Option (Int × FILE) :=
  match r.compression with
  | comprType.NONE =>
      (ReadPlain fs uninit r.name dstfile r.offset r.length).map toIntResult
  | comprType.ENIGMA => some (toIntResult (c.enigma_decode fs r.name dstfile r.offset false))
  | comprType.KOSINSKI =>
      some (toIntResult (c.kosinski_decode fs r.name dstfile r.offset false 16))
  | comprType.MODULED_KOSINSKI =>
      some (toIntResult (c.kosinski_decode fs r.name dstfile r.offset true 16))
  | comprType.NEMESIS => some (toIntResult (c.nemesis_decode fs r.name dstfile r.offset 0))
  | comprType.KID_CHAMELEON => some (toIntResult (c.KidDec fs r.name dstfile r.offset))
  | comprType.COMPER => some (toIntResult (c.comper_decode fs r.name dstfile r.offset))
  | comprType.SAXMAN => some (toIntResult (c.saxman_decode fs r.name dstfile r.offset 0))
  | comprType.INVALID => none

/-- The box `ResourceArt::Load` shows for an `INVALID` compression. -/
def artInvalidBox : MessageBox :=
  { flags := Severity.ERROR, title := "Error",
    message := "Invalid art compression format. Should be one of the following:\n\n'None'\n'Enigma'\n'Kosinski'\n'Moduled Kosinski'\n'Nemesis'\n'Kid Chameleon'\n'Comper'\n'Saxman'" }

/-- The box `ResourceArt::Load` shows when the decode failed. -/
def artDecompressBox : MessageBox :=
  { flags := Severity.ERROR, title := "Error",
    message := "Could not decompress art file. Are you sure the compression is correct?" }

/-- The box `ResourceMap::Load` shows for an `INVALID` or `KID_CHAMELEON` compression. -/
def mapInvalidBox : MessageBox :=
  { flags := Severity.ERROR, title := "Error",
    message := "Invalid map compression format. Should be one of the following:\n\n'None'\n'Enigma'\n'Kosinski'\n'Moduled Kosinski'\n'Nemesis'\n'Comper'\n'Saxman'" }

/-- The box `ResourceMap::Load` shows when the decode failed and the file exists. -/
def mapDecompressBox : MessageBox :=
  { flags := Severity.ERROR, title := "Error",
    message := "Could not decompress map file. Are you sure the compression is correct?" }

/-- The box `ResourceMap::Load` shows after creating a blank template. -/
def mapBlankBox : MessageBox :=
  { flags := Severity.INFORMATION, title := "Information",
    message := "No map file found, created blank template." }

/-- The box `ResourceMap::Load` shows when it trims the map. -/
def mapTrimBox : MessageBox :=
  { flags := Severity.WARNING, title := "Warning",
    message := "Specified size exceeds map size.\nField has been trimmed vertically." }

/-- The box `ResourceMap::Load` shows when the map will be saved to the default file. -/
def mapDefaultBox : MessageBox :=
  { flags := Severity.INFORMATION, title := "Information",
    message := "This tool cannot overwrite a ROM. Plane map will be saved to " ++ FILE_MAP_DEFAULT }

/-- The box `ResourcePal::Load` shows for an `INVALID` compression. -/
def palInvalidBox : MessageBox :=
  { flags := Severity.ERROR, title := "Error",
    message := "Invalid palette compression format. Should be one of the following:\n\n'None'\n'Enigma'\n'Kosinski'\n'Moduled Kosinski'\n'Nemesis'\n'Kid Chameleon'\n'Comper'\n'Saxman'" }

/-- The box `ResourcePal::Load` shows when the decode failed. -/
def palDecompressBox : MessageBox :=
  { flags := Severity.ERROR, title := "Error",
    message := "Could not decompress palette file. Are you sure the compression is correct?" }

/-- `void ResourceArt::Load(const char* const filename)`. -/
def ResourceArt.Load (c : Codecs) (fs : FileSystem) (uninit : Nat → Nat) (r : ResourceArt)
    (filename : FILE) : Option (Run ResourceArt) :=
  if r.compression = comprType.INVALID then
    some { term := Termination.exited 1, self := r, dst := filename, shown := [artInvalidBox] }
  else
    match r.toResource.DecompressToFile c fs uninit filename with
    | none => none
    | some (result, dst) =>
      let decompressed_length : Int := wrapInt result
      if decompressed_length < 0 then
        some { term := Termination.exited 1, self := r, dst := dst, shown := [artDecompressBox] }
      else
        some { term := Termination.returned,
               self := { r with tileAmount := Int.tdiv decompressed_length 0x20 },
               dst := dst, shown := [] }

/-- Lines 159 to 174 of `ResourceMap::Load`: the save-path resolution. -/
def ResourceMap.Load_savePath (r : ResourceMap) (dst : FILE) (shown : List MessageBox) :
    Run ResourceMap :=
  if r.saveName = "" then
    if r.offset = 0 then
      { term := Termination.returned, self := { r with saveName := r.name },
        dst := dst, shown := shown }
    else
      { term := Termination.returned, self := { r with saveName := FILE_MAP_DEFAULT },
        dst := dst, shown := shown ++ [mapDefaultBox] }
  else
    { term := Termination.returned, self := r, dst := dst, shown := shown }

/-- Lines 151 to 174 of `ResourceMap::Load`: the trim branch, then the save-path
resolution.  The two divisions cannot leave the range of `int`: `Load` enters
the branch with a decoded length between 0 and `INT_MAX` only. -/
def ResourceMap.Load_trim (r : ResourceMap) (decompressed_length : Int) (dst : FILE)
    (shown : List MessageBox) : Option (Run ResourceMap) :=
  if decompressed_length < imul (imul 2 r.xSize) r.ySize then
    if r.xSize = 0 then none
    else
      let r1 : ResourceMap :=
        { r with ySize := Int.tdiv (Int.tdiv decompressed_length r.xSize) 2 }
      if r1.ySize = 0 then
        some { term := Termination.exited 1, self := r1, dst := dst,
               shown := shown ++ [mapTrimBox] }
      else
        some (ResourceMap.Load_savePath r1 dst (shown ++ [mapTrimBox]))
  else
    some (ResourceMap.Load_savePath r dst shown)

/-- `void ResourceMap::Load(const char* const filename)`. -/
def ResourceMap.Load (c : Codecs) (fs : FileSystem) (uninit : Nat → Nat) (r : ResourceMap)
    (filename : FILE) : Option (Run ResourceMap) :=
  if r.compression = comprType.INVALID ∨ r.compression = comprType.KID_CHAMELEON then
    some { term := Termination.exited 1, self := r, dst := filename, shown := [mapInvalidBox] }
  else
    match r.toResource.DecompressToFile c fs uninit filename with
    | none => none
    | some (result, dst) =>
      let decompressed_length : Int := wrapInt result
      if decompressed_length < 0 then
        -- file could not be decompressed or found
        let decompressed_length : Int := imul (imul 2 r.xSize) r.ySize
        match CheckCreateBlankFile fs r.name dst r.offset decompressed_length with
        | none => none
        | some (false, dst) =>
          -- file is existant but could not be decompressed
          some { term := Termination.exited 1, self := r, dst := dst,
                 shown := [mapDecompressBox] }
        | some (true, dst) =>
          -- file non-existant, blank template created
          ResourceMap.Load_trim r decompressed_length dst [mapBlankBox]
      else
        ResourceMap.Load_trim r decompressed_length dst []

/-- `void ResourcePal::Load(const char* const filename)`. -/
def ResourcePal.Load (c : Codecs) (fs : FileSystem) (uninit : Nat → Nat) (r : ResourcePal)
    (filename : FILE) : Option (Run ResourcePal) :=
  if r.compression = comprType.INVALID then
    some { term := Termination.exited 1, self := r, dst := filename, shown := [palInvalidBox] }
  else
    match r.toResource.DecompressToFile c fs uninit filename with
    | none => none
    | some (result, dst) =>
      let decompressed_length : Int := wrapInt result
      if decompressed_length < 0 then
        some { term := Termination.exited 1, self := r, dst := dst, shown := [palDecompressBox] }
      else
        some { term := Termination.returned, self := r, dst := dst, shown := [] }

/-! ## Concrete inputs -/

/-- Memory whose uninitialised bytes all read `0xCD`. -/
def uninitCD : Nat → Nat := fun _ => 0xCD

/-- A map resource read whole from the file `name` with the given compression. -/
def mapOf (name : String) (offset : Int) (compression : comprType) (xSize ySize : Int)
    (saveName : String) : ResourceMap :=
  { ResourceMap.new with
    name := name, offset := offset, compression := compression,
    xSize := xSize, ySize := ySize, saveName := saveName }


/-! ## Machine integers: helper lemmas -/

theorem wrapInt_eq_self (n : Int) (h1 : -2147483648 ≤ n) (h2 : n < 2147483648) :
    wrapInt n = n := by
  unfold wrapInt
  omega

theorem wrapInt_range (n : Int) : -2147483648 ≤ wrapInt n ∧ wrapInt n < 2147483648 := by
  unfold wrapInt
  omega

theorem wrapInt_wrapInt (n : Int) : wrapInt (wrapInt n) = wrapInt n :=
  wrapInt_eq_self _ (wrapInt_range n).1 (wrapInt_range n).2

theorem wrapInt_add_mul (n t : Int) : wrapInt (n + 4294967296 * t) = wrapInt n := by
  unfold wrapInt
  rw [show n + 4294967296 * t + 2147483648 = (n + 2147483648) + 4294967296 * t by ring,
    Int.add_mul_emod_self_left]

theorem wrapInt_eq_sub (n : Int) :
    wrapInt n = n + 4294967296 * (-((n + 2147483648) / 4294967296)) := by
  unfold wrapInt
  omega

theorem imul_imul (a b c : Int) : imul (imul a b) c = wrapInt (a * b * c) := by
  unfold imul
  rw [wrapInt_eq_sub (a * b),
    show (a * b + 4294967296 * (-((a * b + 2147483648) / 4294967296))) * c
      = a * b * c + 4294967296 * (-((a * b + 2147483648) / 4294967296) * c) by ring,
    wrapInt_add_mul]

theorem imul_imul_eq (x y : Int) (h1 : -2147483648 ≤ 2 * x * y) (h2 : 2 * x * y < 2147483648) :
    imul (imul 2 x) y = 2 * x * y := by
  rw [imul_imul, wrapInt_eq_self _ h1 h2]

theorem ladd_eq (a b : Int) (h1 : -9223372036854775808 ≤ a + b)
    (h2 : a + b < 9223372036854775808) : ladd a b = a + b := by
  unfold ladd wrapLong
  omega

theorem toIntResult_int (p : Int × FILE) : wrapInt (toIntResult p).1 = (toIntResult p).1 :=
  wrapInt_wrapInt p.1

theorem DecompressToFile_int (c : Codecs) (fs : FileSystem) (uninit : Nat → Nat)
    (r : Resource) (dstfile : FILE) (d : Int) (dst : FILE)
    (h : r.DecompressToFile c fs uninit dstfile = some (d, dst)) : wrapInt d = d := by
  unfold Resource.DecompressToFile toIntResult at h
  split at h
  · cases hr : ReadPlain fs uninit r.name dstfile r.offset r.length with
    | none => simp [hr] at h
    | some p =>
      simp only [hr, Option.map_some', Option.some.injEq] at h
      cases h
      exact wrapInt_wrapInt _
  all_goals
    cases h
    try exact wrapInt_wrapInt _

/-! ## Streams: helper lemmas -/

theorem fwrite_rewind_pos (bytes : List Nat) (dst : FILE) :
    (fwrite bytes (rewind dst)).pos = bytes.length := by
  unfold fwrite rewind
  split
  · next h => simp [h]
  · simp

theorem fwrite_rewind_data (bytes : List Nat) (dst : FILE) :
    (fwrite bytes (rewind dst)).data = bytes ++ dst.data.drop bytes.length := by
  unfold fwrite rewind
  split
  · next h => simp [h]
  · simp

theorem freadBuffer_length (uninit : Nat → Nat) (n : Nat) (got : List Nat)
    (h : got.length ≤ n) : (freadBuffer uninit n got).length = n := by
  simp [freadBuffer]
  omega

theorem freadBuffer_full (uninit : Nat → Nat) (n : Nat) (got : List Nat)
    (h : got.length = n) : freadBuffer uninit n got = got := by
  simp [freadBuffer, h]

theorem fputc_at_end (c : Nat) (f : FILE) (h : f.pos = f.data.length) :
    fputc c f = { data := f.data ++ [c], pos := f.data.length + 1 } := by
  simp [fputc, fwrite, h]

theorem fputcLoop_at_end (c : Nat) (n : Nat) (f : FILE) (h : f.pos = f.data.length) :
    fputcLoop c n f = { data := f.data ++ List.replicate n c, pos := f.data.length + n } := by
  induction n generalizing f with
  | zero =>
    cases f
    simp_all [fputcLoop]
  | succ k ih =>
    rw [fputcLoop, fputc_at_end c f h, ih _ (by simp)]
    simp [List.replicate_succ]
    omega

theorem fopen_single (path : String) (content : List Nat) :
    (FileSystem.single path content).fopen path = some content := by
  simp [FileSystem.fopen, FileSystem.single, FileSystem.empty]

theorem ReadPlain_whole_of_wrap_zero (fs : FileSystem) (uninit : Nat → Nat) (srcfile : String)
    (dst : FILE) (src : List Nat) (hsrc : fs.fopen srcfile = some src)
    (hw : wrapInt (src.length : Int) = 0) :
    ReadPlain fs uninit srcfile dst 0 0 = some (0, rewind dst) := by
  simp [ReadPlain, hsrc, hw, freadBuffer, fwrite]

/-! ## The byte-range copier and the blank-file synthesiser -/

/-- C6, as the code has it.  The length contract of `ReadPlain`, for every
file system, source path and destination stream.  (1) With offset 0 and length
0 and a source of `N` bytes, where `N` fits an `int` (`N < 2^31`), it returns
`N` and the destination holds the whole source from its start, what lay beyond
byte `N` staying as it was.  (2) With an offset `o` and an explicit length
`l > 0` and a source of at least `o + l` bytes, it returns `l` and the
destination holds the `l` source bytes from `o` on, from its start.  (3) With a
nonzero offset and length 0 it returns `-1` and the destination is untouched.
(4) When the source cannot be opened it returns `-1` and the destination is
untouched.  (5) Whenever it returns a value other than the failure value `-1`,
that value is not negative and is the number of bytes written to the rewound
destination. -/
theorem ReadPlain_length_contract (fs : FileSystem) (uninit : Nat → Nat) (srcfile : String)
    (dst : FILE) :
    (∀ src, fs.fopen srcfile = some src → src.length < 2147483648 →
      ∃ out, ReadPlain fs uninit srcfile dst 0 0 = some ((src.length : Int), out) ∧
        out.pos = src.length ∧ out.data = src ++ dst.data.drop src.length) ∧
    (∀ src (o l : Nat), fs.fopen srcfile = some src → 0 < l → o + l ≤ src.length →
      ∃ out, ReadPlain fs uninit srcfile dst (o : Int) (l : Int) = some ((l : Int), out) ∧
        out.pos = l ∧ out.data = (src.drop o).take l ++ dst.data.drop l) ∧
    (∀ Pointer : Int, Pointer ≠ 0 →
      ReadPlain fs uninit srcfile dst Pointer 0 = some (-1, dst)) ∧
    (fs.fopen srcfile = none → ∀ Pointer length : Int,
      ReadPlain fs uninit srcfile dst Pointer length = some (-1, dst)) ∧
    (∀ (Pointer length n : Int) (out : FILE),
      ReadPlain fs uninit srcfile dst Pointer length = some (n, out) → n ≠ -1 →
      0 ≤ n ∧ ∃ bytes : List Nat, (bytes.length : Int) = n ∧ out = fwrite bytes (rewind dst)) := by
  refine ⟨?_, ?_, ?_, ?_, ?_⟩
  · intro src hsrc hN
    have hw : wrapInt (src.length : Int) = (src.length : Int) :=
      wrapInt_eq_self _ (by omega) (by omega)
    refine ⟨fwrite src (rewind dst), ?_, fwrite_rewind_pos _ _, fwrite_rewind_data _ _⟩
    simp [ReadPlain, hsrc, freadBuffer, hw]
  · intro src o l hsrc hl hlen
    have hgot : ((src.drop o).take l).length = l := by
      simp [List.length_take, List.length_drop]
      omega
    refine ⟨fwrite ((src.drop o).take l) (rewind dst), ?_, ?_, ?_⟩
    · have hl0 : (l : Int) ≠ 0 := by omega
      have hnn : ¬ ((l : Int) < 0) := by omega
      simp only [ReadPlain, hsrc, hl0, false_and, if_false, hnn, Int.toNat_ofNat]
      rw [freadBuffer_full uninit l _ hgot]
    · rw [fwrite_rewind_pos, hgot]
    · rw [fwrite_rewind_data, hgot]
  · intro Pointer hP
    cases hsrc : fs.fopen srcfile <;> simp [ReadPlain, hsrc, hP]
  · intro hsrc Pointer length
    simp [ReadPlain, hsrc]
  · intro Pointer length n out h hn
    cases hsrc : fs.fopen srcfile with
    | none =>
      simp [ReadPlain, hsrc] at h
      omega
    | some src =>
      by_cases hc : length = 0 ∧ Pointer ≠ 0
      · simp [ReadPlain, hsrc, hc] at h
        omega
      · by_cases hneg : (if length = 0 then wrapInt (src.length : Int) else length) < 0
        · simp [ReadPlain, hsrc, hc, hneg] at h
        · simp only [ReadPlain, hsrc, hc, hneg, if_false, Option.some.injEq,
            Prod.mk.injEq] at h
          obtain ⟨h1, h2⟩ := h
          subst h1
          refine ⟨by omega, _, ?_, h2.symm⟩
          rw [freadBuffer_length]
          · omega
          · simp [List.length_take]

/-- The source has five bytes and the destination held seven: the whole-file
copy overwrites the first five, the copy of three bytes from offset 1 the first
three. -/
theorem ReadPlain_length_contract_witness :
    (∃ out, ReadPlain (FileSystem.single "a.bin" [1, 2, 3, 4, 5]) uninitCD "a.bin"
        { data := [9, 9, 9, 9, 9, 9, 9], pos := 3 } 0 0 = some (5, out) ∧
        out.pos = 5 ∧ out.data = [1, 2, 3, 4, 5, 9, 9]) ∧
    (∃ out, ReadPlain (FileSystem.single "a.bin" [1, 2, 3, 4, 5]) uninitCD "a.bin"
        { data := [9, 9, 9, 9, 9, 9, 9], pos := 3 } 1 3 = some (3, out) ∧
        out.pos = 3 ∧ out.data = [2, 3, 4, 9, 9, 9, 9]) :=
  ⟨(ReadPlain_length_contract (FileSystem.single "a.bin" [1, 2, 3, 4, 5]) uninitCD "a.bin"
      { data := [9, 9, 9, 9, 9, 9, 9], pos := 3 }).1 [1, 2, 3, 4, 5] (by decide) (by decide),
   (ReadPlain_length_contract (FileSystem.single "a.bin" [1, 2, 3, 4, 5]) uninitCD "a.bin"
      { data := [9, 9, 9, 9, 9, 9, 9], pos := 3 }).2.1 [1, 2, 3, 4, 5] 1 3
      (by decide) (by decide) (by decide)⟩

/-- C6 as stated fails for a source whose size does not fit an `int`.  The
source has `2^32` bytes; with offset 0 and length 0 the size read by `ftell`
becomes 0 in `int length`, so `ReadPlain` returns 0 and writes nothing. -/
theorem ReadPlain_whole_file_truncated :
    (List.replicate 4294967296 0).length = 4294967296 ∧
    ReadPlain (FileSystem.single "rom.bin" (List.replicate 4294967296 0)) uninitCD "rom.bin"
        FILE.empty 0 0 = some (0, FILE.empty) :=
  ⟨List.length_replicate _ _,
   ReadPlain_whole_of_wrap_zero _ _ _ _ _ (fopen_single _ _)
     (by rw [List.length_replicate]; decide)⟩

/-- C7, as the code has it.  `CheckCreateBlankFile`, for every file system,
source path, offset and length.  When the source path has no file and
`Pointer + length` is at most `INT_MAX` (and is a `long`), the call on an empty
destination returns `true`, and the destination then holds only zero bytes, as
many as `Pointer + length` (none when that sum is negative).  When the source
path has a file, the call returns `false` and the destination, whatever it is,
is untouched. -/
theorem CheckCreateBlankFile_spec (fs : FileSystem) (srcfile : String) (Pointer length : Int) :
    (fs.fopen srcfile = none →
      -9223372036854775808 ≤ Pointer + length → Pointer + length ≤ INT_MAX →
      ∃ out, CheckCreateBlankFile fs srcfile FILE.empty Pointer length = some (true, out) ∧
        out.data = List.replicate (Pointer + length).toNat 0 ∧
        (0 ≤ Pointer + length → (out.data.length : Int) = Pointer + length)) ∧
    (∀ src dst, fs.fopen srcfile = some src →
      CheckCreateBlankFile fs srcfile dst Pointer length = some (false, dst)) := by
  constructor
  · intro h hlo hhi
    have hsum : ladd Pointer length = Pointer + length :=
      ladd_eq _ _ hlo (by unfold INT_MAX at hhi; omega)
    have hloop := fputcLoop_at_end 0 (Pointer + length).toNat FILE.empty rfl
    simp only [FILE.empty, List.nil_append] at hloop
    refine ⟨fputcLoop 0 (Pointer + length).toNat FILE.empty, ?_, ?_, ?_⟩
    · simp [CheckCreateBlankFile, h, hsum, not_lt.mpr hhi]
    · simp only [FILE.empty, hloop]
    · intro hnn
      simp [FILE.empty, hloop, Int.toNat_of_nonneg hnn]
  · intro src dst h
    simp [CheckCreateBlankFile, h]

/-- Offset 2 and length 3 without a source file give five zero bytes; with a
source file nothing is written. -/
theorem CheckCreateBlankFile_spec_witness :
    (∃ out, CheckCreateBlankFile FileSystem.empty "map.bin" FILE.empty 2 3 = some (true, out) ∧
        out.data = List.replicate (2 + 3 : Int).toNat 0 ∧
        ((0 : Int) ≤ 2 + 3 → (out.data.length : Int) = 2 + 3)) ∧
    CheckCreateBlankFile (FileSystem.single "map.bin" [7]) "map.bin" FILE.empty 2 3
      = some (false, FILE.empty) :=
  ⟨(CheckCreateBlankFile_spec FileSystem.empty "map.bin" 2 3).1 rfl (by decide) (by decide),
   (CheckCreateBlankFile_spec (FileSystem.single "map.bin" [7]) "map.bin" 2 3).2 [7] FILE.empty
      (by decide)⟩

/-- C7 as stated fails when `Pointer + length` is above `INT_MAX`.  Without a
source file, with offset `2147483647` and length 1, the `int` counter never
reaches the bound `2147483648`: the loop does not end and the call does not
return `true` after `2147483648` bytes.  With offset `-2^63` and length `-1`
the `long` sum wraps to `2^63 - 1`, with the same end. -/
theorem CheckCreateBlankFile_counter_overflow :
    FileSystem.empty.fopen "map.bin" = none ∧
    CheckCreateBlankFile FileSystem.empty "map.bin" FILE.empty 2147483647 1 = none ∧
    CheckCreateBlankFile FileSystem.empty "map.bin" FILE.empty (-9223372036854775808) (-1)
      = none := by
  decide

/-! ## Loading: helper lemmas -/

theorem tdiv_tdiv_eq (d x : Int) (hd : 0 ≤ d) (hx : 0 < x) :
    Int.tdiv (Int.tdiv d x) 2 = d / x / 2 := by
  rw [Int.tdiv_eq_ediv hd (le_of_lt hx),
    Int.tdiv_eq_ediv (Int.ediv_nonneg hd (le_of_lt hx)) (by decide)]

theorem trimmed_lt (d x y : Int) (hx : 0 < x) (h : d < 2 * x * y) : d / x / 2 < y := by
  have h1 : d / x < 2 * y := by
    apply Int.ediv_lt_of_lt_mul hx
    linarith [mul_comm x y, mul_assoc 2 x y, mul_assoc 2 y x]
  exact Int.ediv_lt_of_lt_mul (by decide) (by linarith)

theorem trimmed_fits (d x : Int) (hx : 0 < x) : 2 * x * (d / x / 2) ≤ d := by
  have h1 : d / x / 2 * 2 ≤ d / x := Int.ediv_mul_le _ (by decide)
  have h2 : d / x * x ≤ d := Int.ediv_mul_le _ (ne_of_gt hx)
  have h3 : x * (d / x / 2 * 2) ≤ x * (d / x) := Int.mul_le_mul_of_nonneg_left h1 (le_of_lt hx)
  calc 2 * x * (d / x / 2) = x * (d / x / 2 * 2) := by ring
    _ ≤ x * (d / x) := h3
    _ = d / x * x := by ring
    _ ≤ d := h2

theorem trimmed_zero_of_lt (d x : Int) (hd : 0 ≤ d) (hx : 0 < x) (h : d < 2 * x) :
    d / x / 2 = 0 := by
  have h1 : d / x < 2 := Int.ediv_lt_of_lt_mul hx h
  have h2 : 0 ≤ d / x := Int.ediv_nonneg hd (le_of_lt hx)
  omega

theorem Load_savePath_term (r : ResourceMap) (dst : FILE) (shown : List MessageBox) :
    (ResourceMap.Load_savePath r dst shown).term = Termination.returned := by
  unfold ResourceMap.Load_savePath
  split_ifs <;> rfl

theorem Load_savePath_dst (r : ResourceMap) (dst : FILE) (shown : List MessageBox) :
    (ResourceMap.Load_savePath r dst shown).dst = dst := by
  unfold ResourceMap.Load_savePath
  split_ifs <;> rfl

theorem Load_savePath_size (r : ResourceMap) (dst : FILE) (shown : List MessageBox) :
    (ResourceMap.Load_savePath r dst shown).self.xSize = r.xSize ∧
    (ResourceMap.Load_savePath r dst shown).self.ySize = r.ySize := by
  unfold ResourceMap.Load_savePath
  split_ifs <;> exact ⟨rfl, rfl⟩

theorem Load_savePath_saveName (r : ResourceMap) (dst : FILE) (shown : List MessageBox) :
    (ResourceMap.Load_savePath r dst shown).self.saveName
      = if r.saveName = "" then (if r.offset = 0 then r.name else FILE_MAP_DEFAULT)
        else r.saveName := by
  unfold ResourceMap.Load_savePath
  split_ifs <;> rfl

theorem Load_savePath_shown (r : ResourceMap) (dst : FILE) (shown : List MessageBox) :
    (ResourceMap.Load_savePath r dst shown).shown
      = if r.saveName = "" ∧ r.offset ≠ 0 then shown ++ [mapDefaultBox] else shown := by
  unfold ResourceMap.Load_savePath
  split_ifs <;> simp_all

theorem mem_Load_savePath_shown (b : MessageBox) (r : ResourceMap) (dst : FILE)
    (shown : List MessageBox) (h : b ∈ shown) :
    b ∈ (ResourceMap.Load_savePath r dst shown).shown := by
  rw [Load_savePath_shown]
  split_ifs <;> simp [h]

theorem mapTrimBox_mem_Load_savePath_shown (r : ResourceMap) (dst : FILE)
    (shown : List MessageBox) :
    mapTrimBox ∈ (ResourceMap.Load_savePath r dst shown).shown ↔ mapTrimBox ∈ shown := by
  rw [Load_savePath_shown]
  have hne : mapTrimBox ≠ mapDefaultBox := by decide
  split_ifs <;> simp [hne]

theorem Load_trim_of_not_lt (r : ResourceMap) (d : Int) (dst : FILE) (shown : List MessageBox)
    (h : ¬ d < imul (imul 2 r.xSize) r.ySize) :
    ResourceMap.Load_trim r d dst shown = some (ResourceMap.Load_savePath r dst shown) := by
  simp [ResourceMap.Load_trim, h]

theorem Load_trim_of_lt (r : ResourceMap) (d : Int) (dst : FILE) (shown : List MessageBox)
    (h : d < imul (imul 2 r.xSize) r.ySize) (hx : r.xSize ≠ 0) :
    ResourceMap.Load_trim r d dst shown
      = if Int.tdiv (Int.tdiv d r.xSize) 2 = 0 then
          some { term := Termination.exited 1,
                 self := { r with ySize := Int.tdiv (Int.tdiv d r.xSize) 2 },
                 dst := dst, shown := shown ++ [mapTrimBox] }
        else
          some (ResourceMap.Load_savePath
            { r with ySize := Int.tdiv (Int.tdiv d r.xSize) 2 } dst (shown ++ [mapTrimBox])) := by
  simp [ResourceMap.Load_trim, h, hx]

theorem Load_of_decode (c : Codecs) (fs : FileSystem) (uninit : Nat → Nat) (r : ResourceMap)
    (filename : FILE) (d : Int) (dst : FILE)
    (hc : r.compression ≠ comprType.INVALID ∧ r.compression ≠ comprType.KID_CHAMELEON)
    (hd : r.toResource.DecompressToFile c fs uninit filename = some (d, dst)) :
    ResourceMap.Load c fs uninit r filename
      = if d < 0 then
          match fs.fopen r.name with
          | some _ =>
            some { term := Termination.exited 1, self := r, dst := dst,
                   shown := [mapDecompressBox] }
          | none =>
            if INT_MAX < ladd r.offset (imul (imul 2 r.xSize) r.ySize) then none
            else
              ResourceMap.Load_trim r (imul (imul 2 r.xSize) r.ySize)
                (fputcLoop 0 (ladd r.offset (imul (imul 2 r.xSize) r.ySize)).toNat dst)
                [mapBlankBox]
        else ResourceMap.Load_trim r d dst [] := by
  unfold ResourceMap.Load
  rw [if_neg (by simp [hc.1, hc.2]), hd]
  simp only [DecompressToFile_int c fs uninit r.toResource filename d dst hd]
  by_cases hneg : d < 0
  · cases hsrc : fs.fopen r.name with
    | none =>
      by_cases hb : INT_MAX < ladd r.offset (imul (imul 2 r.xSize) r.ySize)
      · simp [hneg, CheckCreateBlankFile, hsrc, hb]
      · simp [hneg, CheckCreateBlankFile, hsrc, hb]
    | some src => simp [hneg, CheckCreateBlankFile, hsrc]
  · simp [hneg]

/-- Every returning run of `ResourceMap::Load` decoded something, and ends in
the save-path resolution of the resource with its `ySize` kept (no trim) or
replaced by the trimmed, nonzero value. -/
theorem Load_returned_cases (c : Codecs) (fs : FileSystem) (uninit : Nat → Nat)
    (r : ResourceMap) (filename : FILE) (out : Run ResourceMap)
    (hload : ResourceMap.Load c fs uninit r filename = some out)
    (hret : out.term = Termination.returned) :
    ∃ (d : Int) (dst dst1 : FILE) (shown1 : List MessageBox) (y1 : Int),
      r.toResource.DecompressToFile c fs uninit filename = some (d, dst) ∧
      out = ResourceMap.Load_savePath { r with ySize := y1 } dst1 shown1 ∧
      ((¬ (if d < 0 then imul (imul 2 r.xSize) r.ySize else d) < imul (imul 2 r.xSize) r.ySize ∧
          y1 = r.ySize) ∨
       ((if d < 0 then imul (imul 2 r.xSize) r.ySize else d) < imul (imul 2 r.xSize) r.ySize ∧
          r.xSize ≠ 0 ∧
          y1 = Int.tdiv
            (Int.tdiv (if d < 0 then imul (imul 2 r.xSize) r.ySize else d) r.xSize) 2 ∧
          y1 ≠ 0)) := by
  by_cases hc : r.compression = comprType.INVALID ∨ r.compression = comprType.KID_CHAMELEON
  · simp only [ResourceMap.Load, if_pos hc, Option.some.injEq] at hload
    subst hload
    simp at hret
  · have hc2 : r.compression ≠ comprType.INVALID ∧ r.compression ≠ comprType.KID_CHAMELEON :=
      not_or.mp hc
    cases hd : r.toResource.DecompressToFile c fs uninit filename with
    | none => simp [ResourceMap.Load, hc, hd] at hload
    | some p =>
      obtain ⟨d, dst⟩ := p
      rw [Load_of_decode c fs uninit r filename d dst hc2 hd] at hload
      have trimCase : ∀ (len : Int) (dst1 : FILE) (shown0 : List MessageBox),
          ResourceMap.Load_trim r len dst1 shown0 = some out →
          ∃ (dst1 : FILE) (shown1 : List MessageBox) (y1 : Int),
            out = ResourceMap.Load_savePath { r with ySize := y1 } dst1 shown1 ∧
            ((¬ len < imul (imul 2 r.xSize) r.ySize ∧ y1 = r.ySize) ∨
             (len < imul (imul 2 r.xSize) r.ySize ∧ r.xSize ≠ 0 ∧
                y1 = Int.tdiv (Int.tdiv len r.xSize) 2 ∧ y1 ≠ 0)) := by
        intro len dst1 shown0 h
        by_cases hlt : len < imul (imul 2 r.xSize) r.ySize
        · by_cases hx : r.xSize = 0
          · rw [ResourceMap.Load_trim, if_pos hlt, if_pos hx] at h
            cases h
          · rw [Load_trim_of_lt r len dst1 shown0 hlt hx] at h
            by_cases hz : Int.tdiv (Int.tdiv len r.xSize) 2 = 0
            · rw [if_pos hz, Option.some.injEq] at h
              subst h
              simp at hret
            · rw [if_neg hz, Option.some.injEq] at h
              exact ⟨_, _, _, h.symm, Or.inr ⟨hlt, hx, rfl, hz⟩⟩
        · rw [Load_trim_of_not_lt r len dst1 shown0 hlt, Option.some.injEq] at h
          exact ⟨_, _, r.ySize, h.symm, Or.inl ⟨hlt, rfl⟩⟩
      by_cases hneg : d < 0
      · rw [if_pos hneg] at hload
        cases hsrc : fs.fopen r.name with
        | none =>
          rw [hsrc] at hload
          by_cases hb : INT_MAX < ladd r.offset (imul (imul 2 r.xSize) r.ySize)
          · simp [hb] at hload
          · simp only [if_neg hb] at hload
            obtain ⟨dst1, shown1, y1, h1, h2⟩ := trimCase _ _ _ hload
            exact ⟨d, dst, dst1, shown1, y1, rfl, h1, by rw [if_pos hneg]; exact h2⟩
        | some src =>
          rw [hsrc] at hload
          simp only [Option.some.injEq] at hload
          subst hload
          simp at hret
      · rw [if_neg hneg] at hload
        obtain ⟨dst1, shown1, y1, h1, h2⟩ := trimCase _ _ _ hload
        exact ⟨d, dst, dst1, shown1, y1, rfl, h1, by rw [if_neg hneg]; exact h2⟩

/-! ## Loading a map -/

/-- C1, as the code has it.  The fallback of `ResourceMap::Load`: for every map
resource whose compression is legal for maps and whose `DecompressToFile`
result `d` is negative.  (a) When the source path has no file, the product
`2 * xSize * ySize` fits an `int` and `offset + 2 * xSize * ySize` is at most
`INT_MAX` (and is a `long`), `Load` goes on with the decoded length
`2 * xSize * ySize` on a destination that received
`offset + 2 * xSize * ySize` zero bytes (appended to its content when the
decoder left the position at the end), it shows the Information box about the
blank template, it returns, the trim box is not shown, and `xSize` and `ySize`
are unchanged.  (b) When the source path has a file, `Load` shows the Error box
and leaves through `exit(1)`. -/
theorem ResourceMap_Load_fallback (c : Codecs) (fs : FileSystem) (uninit : Nat → Nat)
    (r : ResourceMap) (filename : FILE) (d : Int) (dst : FILE)
    (hc : r.compression ≠ comprType.INVALID ∧ r.compression ≠ comprType.KID_CHAMELEON)
    (hd : r.toResource.DecompressToFile c fs uninit filename = some (d, dst))
    (hneg : d < 0) :
    (fs.fopen r.name = none →
      -2147483648 ≤ 2 * r.xSize * r.ySize → 2 * r.xSize * r.ySize < 2147483648 →
      -9223372036854775808 ≤ r.offset + 2 * r.xSize * r.ySize →
      r.offset + 2 * r.xSize * r.ySize ≤ INT_MAX →
      ∃ out, ResourceMap.Load c fs uninit r filename = some out ∧
        ResourceMap.Load c fs uninit r filename
          = ResourceMap.Load_trim r (2 * r.xSize * r.ySize)
              (fputcLoop 0 (r.offset + 2 * r.xSize * r.ySize).toNat dst) [mapBlankBox] ∧
        out.term = Termination.returned ∧
        out.dst = fputcLoop 0 (r.offset + 2 * r.xSize * r.ySize).toNat dst ∧
        (dst.pos = dst.data.length →
          out.dst.data
            = dst.data ++ List.replicate (r.offset + 2 * r.xSize * r.ySize).toNat 0) ∧
        mapBlankBox ∈ out.shown ∧ mapTrimBox ∉ out.shown ∧
        out.self.xSize = r.xSize ∧ out.self.ySize = r.ySize) ∧
    (∀ src, fs.fopen r.name = some src →
      ResourceMap.Load c fs uninit r filename
        = some { term := Termination.exited 1, self := r, dst := dst,
                 shown := [mapDecompressBox] }) := by
  have hload := Load_of_decode c fs uninit r filename d dst hc hd
  rw [if_pos hneg] at hload
  constructor
  · intro hsrc hlo hhi hblo hbhi
    have hW := imul_imul_eq r.xSize r.ySize hlo hhi
    have hsum : ladd r.offset (2 * r.xSize * r.ySize) = r.offset + 2 * r.xSize * r.ySize :=
      ladd_eq _ _ hblo (by unfold INT_MAX at hbhi; omega)
    rw [hsrc] at hload
    simp only [hW, hsum, if_neg (not_lt.mpr hbhi)] at hload
    have htrim := Load_trim_of_not_lt r (2 * r.xSize * r.ySize)
      (fputcLoop 0 (r.offset + 2 * r.xSize * r.ySize).toNat dst) [mapBlankBox]
      (by rw [hW]; exact lt_irrefl _)
    refine ⟨_, hload.trans htrim, hload, Load_savePath_term _ _ _, Load_savePath_dst _ _ _,
      ?_, ?_, ?_, (Load_savePath_size _ _ _).1, (Load_savePath_size _ _ _).2⟩
    · intro hpos
      rw [Load_savePath_dst, fputcLoop_at_end _ _ _ hpos]
    · exact mem_Load_savePath_shown _ _ _ _ (by simp)
    · rw [mapTrimBox_mem_Load_savePath_shown]
      have hne : mapTrimBox ≠ mapBlankBox := by decide
      simp [hne]
  · intro src hsrc
    rw [hsrc] at hload
    exact hload

/-- A map of 2 by 3 cells at offset 4 whose file is missing becomes a blank
template of 16 zero bytes; with the file present and undecodable (offset 4,
length 0) the load is fatal. -/
theorem ResourceMap_Load_fallback_witness :
    (∃ out, ResourceMap.Load (Codecs.const 0) FileSystem.empty uninitCD
        (mapOf "map.bin" 4 comprType.NONE 2 3 "") FILE.empty = some out ∧
      ResourceMap.Load (Codecs.const 0) FileSystem.empty uninitCD
        (mapOf "map.bin" 4 comprType.NONE 2 3 "") FILE.empty
        = ResourceMap.Load_trim (mapOf "map.bin" 4 comprType.NONE 2 3 "") (2 * 2 * 3)
            (fputcLoop 0 (4 + 2 * 2 * 3 : Int).toNat FILE.empty) [mapBlankBox] ∧
      out.term = Termination.returned ∧
      out.dst = fputcLoop 0 (4 + 2 * 2 * 3 : Int).toNat FILE.empty ∧
      (FILE.empty.pos = FILE.empty.data.length →
        out.dst.data = FILE.empty.data ++ List.replicate (4 + 2 * 2 * 3 : Int).toNat 0) ∧
      mapBlankBox ∈ out.shown ∧ mapTrimBox ∉ out.shown ∧
      out.self.xSize = 2 ∧ out.self.ySize = 3) ∧
    ResourceMap.Load (Codecs.const 0) (FileSystem.single "map.bin" [1, 2]) uninitCD
        (mapOf "map.bin" 4 comprType.NONE 2 3 "") FILE.empty
      = some { term := Termination.exited 1, self := mapOf "map.bin" 4 comprType.NONE 2 3 "",
               dst := FILE.empty, shown := [mapDecompressBox] } :=
  ⟨(ResourceMap_Load_fallback (Codecs.const 0) FileSystem.empty uninitCD
      (mapOf "map.bin" 4 comprType.NONE 2 3 "") FILE.empty (-1) FILE.empty
      (by decide) (by decide) (by decide)).1 rfl (by decide) (by decide) (by decide)
      (by decide),
   (ResourceMap_Load_fallback (Codecs.const 0) (FileSystem.single "map.bin" [1, 2]) uninitCD
      (mapOf "map.bin" 4 comprType.NONE 2 3 "") FILE.empty (-1) FILE.empty
      (by decide) (by decide) (by decide)).2 [1, 2] (by decide)⟩

/-- C1 as stated fails outside the range of the machine integers; the source
file is missing in each case.  (1) A map of 65536 by 32768 cells at offset 0:
the product `2^32` is 0 as an `int`, so the blank template has no byte at all,
where the claim has `2^32` zero bytes; the load returns with an empty
destination.  (2) A map of 1 by 1 cell at offset `2147483647`: the bound
`2147483649` is above `INT_MAX`, the `int` counter never reaches it, and the
load does not complete.  (3) A map of -1 by 1 cell at offset `-2^63`: the
`long` sum wraps to a bound above `INT_MAX`, and the load does not complete. -/
theorem ResourceMap_Load_fallback_overflow :
    FileSystem.empty.fopen "map.bin" = none ∧
    ((0 + 2 * 65536 * 32768 : Int) = 4294967296 ∧
      ResourceMap.Load (Codecs.const 0) FileSystem.empty uninitCD
          (mapOf "map.bin" 0 comprType.NONE 65536 32768 "") FILE.empty
        = some { term := Termination.returned,
                 self := mapOf "map.bin" 0 comprType.NONE 65536 32768 "map.bin",
                 dst := { data := [], pos := 0 }, shown := [mapBlankBox] }) ∧
    ResourceMap.Load (Codecs.const 0) FileSystem.empty uninitCD
        (mapOf "map.bin" 2147483647 comprType.NONE 1 1 "") FILE.empty = none ∧
    ResourceMap.Load (Codecs.const 0) FileSystem.empty uninitCD
        (mapOf "map.bin" (-9223372036854775808) comprType.NONE (-1) 1 "") FILE.empty = none := by
  decide

/-- C3, as the code has it.  The trim branch of `ResourceMap::Load`: for every
map resource with a compression legal for maps, `xSize > 0`, a product
`2 * xSize * ySize` that fits an `int`, and a decoded length `d ≥ 0` (with
`ySize > 0` as with any other `ySize`).  When `d < 2 * xSize * ySize`, `Load`
shows the Warning box and sets `ySize` to `d / xSize / 2` (rounded down),
`xSize` staying as it is; it leaves through `exit(1)` exactly when that new
`ySize` is 0, which is so whenever `d < 2 * xSize`, and returns otherwise.
When `d ≥ 2 * xSize * ySize`, `Load` returns with `ySize` unchanged and the
Warning box is not shown. -/
theorem ResourceMap_Load_trimming (c : Codecs) (fs : FileSystem) (uninit : Nat → Nat)
    (r : ResourceMap) (filename : FILE) (d : Int) (dst : FILE)
    (hc : r.compression ≠ comprType.INVALID ∧ r.compression ≠ comprType.KID_CHAMELEON)
    (hx : 0 < r.xSize)
    (hlo : -2147483648 ≤ 2 * r.xSize * r.ySize) (hhi : 2 * r.xSize * r.ySize < 2147483648)
    (hd : r.toResource.DecompressToFile c fs uninit filename = some (d, dst))
    (hnn : 0 ≤ d) :
    (d < 2 * r.xSize * r.ySize →
      ∃ out, ResourceMap.Load c fs uninit r filename = some out ∧
        mapTrimBox ∈ out.shown ∧
        out.self.ySize = d / r.xSize / 2 ∧ out.self.xSize = r.xSize ∧
        (out.term = Termination.exited 1 ↔ d / r.xSize / 2 = 0) ∧
        (out.term = Termination.returned ↔ d / r.xSize / 2 ≠ 0) ∧
        (d < 2 * r.xSize → out.term = Termination.exited 1)) ∧
    (2 * r.xSize * r.ySize ≤ d →
      ∃ out, ResourceMap.Load c fs uninit r filename = some out ∧
        out.term = Termination.returned ∧ out.self.ySize = r.ySize ∧
        mapTrimBox ∉ out.shown) := by
  have hW := imul_imul_eq r.xSize r.ySize hlo hhi
  have hload := Load_of_decode c fs uninit r filename d dst hc hd
  rw [if_neg (not_lt.mpr hnn)] at hload
  constructor
  · intro hlt
    rw [Load_trim_of_lt r d dst [] (by rw [hW]; exact hlt) (ne_of_gt hx),
      tdiv_tdiv_eq d r.xSize hnn hx] at hload
    by_cases hz : d / r.xSize / 2 = 0
    · rw [if_pos hz] at hload
      exact ⟨_, hload, by simp, rfl, rfl, by simp [hz], by simp [hz], fun _ => rfl⟩
    · rw [if_neg hz] at hload
      refine ⟨_, hload, ?_, (Load_savePath_size _ _ _).2, (Load_savePath_size _ _ _).1, ?_, ?_, ?_⟩
      · exact mem_Load_savePath_shown _ _ _ _ (by simp)
      · simp [Load_savePath_term, hz]
      · simp [Load_savePath_term, hz]
      · intro h2
        exact absurd (trimmed_zero_of_lt d r.xSize hnn hx h2) hz
  · intro hge
    rw [Load_trim_of_not_lt r d dst [] (by rw [hW]; exact not_lt.mpr hge)] at hload
    refine ⟨_, hload, Load_savePath_term _ _ _, (Load_savePath_size _ _ _).2, ?_⟩
    rw [mapTrimBox_mem_Load_savePath_shown]
    simp

/-- The map is 10 by 20 cells (400 bytes) and the decoder delivers 250 bytes:
`Load` shows the warning, `ySize` becomes 12 and the load returns. -/
theorem ResourceMap_Load_trimming_witness :
    ∃ out, ResourceMap.Load (Codecs.const 250) (FileSystem.single "map.eni" [0]) uninitCD
        (mapOf "map.eni" 0 comprType.ENIGMA 10 20 "") FILE.empty = some out ∧
      mapTrimBox ∈ out.shown ∧
      out.self.ySize = 12 ∧ out.self.xSize = 10 ∧
      (out.term = Termination.exited 1 ↔ (250 : Int) / 10 / 2 = 0) ∧
      (out.term = Termination.returned ↔ (250 : Int) / 10 / 2 ≠ 0) ∧
      ((250 : Int) < 2 * 10 → out.term = Termination.exited 1) :=
  (ResourceMap_Load_trimming (Codecs.const 250) (FileSystem.single "map.eni" [0]) uninitCD
    (mapOf "map.eni" 0 comprType.ENIGMA 10 20 "") FILE.empty 250 FILE.empty
    (by decide) (by decide) (by decide) (by decide) rfl (by decide)).1 (by decide)

/-- C3 as stated fails when `2 * xSize * ySize` does not fit an `int`.  A map
of 65536 by 32768 cells with a decoded length of 100: the product `2^32` is 0
as an `int`, so `100 < 0` fails and `Load` returns without a warning and with
`ySize` still 32768, where the claim has the warning, `ySize == 0` and a fatal
end. -/
theorem ResourceMap_Load_trimming_overflow :
    (100 : Int) < 2 * 65536 * 32768 ∧
    (mapOf "map.eni" 0 comprType.ENIGMA 65536 32768 "").toResource.DecompressToFile
        (Codecs.const 100) (FileSystem.single "map.eni" [0]) uninitCD FILE.empty
      = some (100, FILE.empty) ∧
    ResourceMap.Load (Codecs.const 100) (FileSystem.single "map.eni" [0]) uninitCD
        (mapOf "map.eni" 0 comprType.ENIGMA 65536 32768 "") FILE.empty
      = some { term := Termination.returned,
               self := mapOf "map.eni" 0 comprType.ENIGMA 65536 32768 "map.eni",
               dst := FILE.empty, shown := [] } := by
  decide

/-- C4. Save-path resolution of `ResourceMap::Load`: for every map resource
whose `Load` returns.  When `saveName` was empty: with `offset == 0` the new
`saveName` is the source path, with `offset != 0` it is `"MapDefault.bin"` and
the Information box naming that file is shown.  When `saveName` was not empty
it is unchanged.  So the new `saveName` is a function of the old `saveName`,
`offset` and the source path alone. -/
theorem ResourceMap_Load_saveName (c : Codecs) (fs : FileSystem) (uninit : Nat → Nat)
    (r : ResourceMap) (filename : FILE) (out : Run ResourceMap)
    (hload : ResourceMap.Load c fs uninit r filename = some out)
    (hret : out.term = Termination.returned) :
    (r.saveName = "" → r.offset = 0 → out.self.saveName = r.name) ∧
    (r.saveName = "" → r.offset ≠ 0 →
      out.self.saveName = "MapDefault.bin" ∧ mapDefaultBox ∈ out.shown) ∧
    (r.saveName ≠ "" → out.self.saveName = r.saveName) ∧
    out.self.saveName
      = (if r.saveName = "" then (if r.offset = 0 then r.name else "MapDefault.bin")
         else r.saveName) := by
  obtain ⟨d, dst, dst1, shown1, y1, -, rfl, -⟩ :=
    Load_returned_cases c fs uninit r filename out hload hret
  have hname := Load_savePath_saveName { r with ySize := y1 } dst1 shown1
  have hshown := Load_savePath_shown { r with ySize := y1 } dst1 shown1
  simp only at hname hshown
  refine ⟨?_, ?_, ?_, ?_⟩
  · intro h1 h2
    rw [hname, if_pos h1, if_pos h2]
  · intro h1 h2
    rw [hname, hshown, if_pos h1, if_neg h2, if_pos ⟨h1, h2⟩]
    exact ⟨rfl, by simp⟩
  · intro h1
    rw [hname, if_neg h1]
  · rw [hname]
    rfl

/-- An embedded map (offset `0x100` in a ROM) without a configured `saveName`
is saved to `"MapDefault.bin"`, and the box saying so is shown. -/
theorem ResourceMap_Load_saveName_witness :
    ResourceMap.Load (Codecs.const 12) FileSystem.empty uninitCD
        (mapOf "rom.bin" 0x100 comprType.ENIGMA 2 3 "") FILE.empty
      = some { term := Termination.returned,
               self := mapOf "rom.bin" 0x100 comprType.ENIGMA 2 3 "MapDefault.bin",
               dst := FILE.empty, shown := [mapDefaultBox] } ∧
    (mapOf "rom.bin" 0x100 comprType.ENIGMA 2 3 "MapDefault.bin").saveName = "MapDefault.bin" ∧
    mapDefaultBox ∈ [mapDefaultBox] :=
  ⟨by decide,
   (ResourceMap_Load_saveName (Codecs.const 12) FileSystem.empty uninitCD
    (mapOf "rom.bin" 0x100 comprType.ENIGMA 2 3 "") FILE.empty
    { term := Termination.returned,
      self := mapOf "rom.bin" 0x100 comprType.ENIGMA 2 3 "MapDefault.bin",
      dst := FILE.empty, shown := [mapDefaultBox] }
    (by decide) rfl).2.1 rfl (by decide)⟩

/-- C2, as the code has it.  For every map resource with `xSize ≥ 0` (and
`ySize ≥ 0`, or any other `ySize`), without integer overflow in
`2 * xSize * ySize`, whose `Load` returns: the new `saveName` is non-empty exactly when
the old `saveName` was non-empty, or `offset != 0`, or the source path is
non-empty; `xSize` is unchanged; the new `ySize` is at most the declared one;
and `2 * xSize * ySize` with the new `ySize` is at most the decoded length
`Load` used, which is the decoder's result `d` when `d ≥ 0` and the synthesised
`2 * xSize * ySize` of the declared sizes otherwise. -/
theorem ResourceMap_Load_invariant (c : Codecs) (fs : FileSystem) (uninit : Nat → Nat)
    (r : ResourceMap) (filename : FILE) (out : Run ResourceMap)
    (hx : 0 ≤ r.xSize)
    (hlo : -2147483648 ≤ 2 * r.xSize * r.ySize) (hhi : 2 * r.xSize * r.ySize < 2147483648)
    (hload : ResourceMap.Load c fs uninit r filename = some out)
    (hret : out.term = Termination.returned) :
    (out.self.saveName ≠ "" ↔ (r.saveName ≠ "" ∨ r.offset ≠ 0 ∨ r.name ≠ "")) ∧
    out.self.xSize = r.xSize ∧
    out.self.ySize ≤ r.ySize ∧
    ∃ d dst, r.toResource.DecompressToFile c fs uninit filename = some (d, dst) ∧
      2 * out.self.xSize * out.self.ySize ≤ (if d < 0 then 2 * r.xSize * r.ySize else d) := by
  obtain ⟨d, dst, dst1, shown1, y1, hd, rfl, hcases⟩ :=
    Load_returned_cases c fs uninit r filename out hload hret
  rw [imul_imul_eq r.xSize r.ySize hlo hhi] at hcases
  have hname := Load_savePath_saveName { r with ySize := y1 } dst1 shown1
  obtain ⟨hxs, hys⟩ := Load_savePath_size { r with ySize := y1 } dst1 shown1
  simp only at hname hxs hys
  have hdef : FILE_MAP_DEFAULT ≠ "" := by decide
  refine ⟨?_, hxs, ?_, d, dst, hd, ?_⟩
  · rw [hname]
    by_cases h1 : r.saveName = ""
    · by_cases h2 : r.offset = 0
      · simp [h1, h2]
      · simp [h1, h2, hdef]
    · simp [h1]
  · rw [hys]
    rcases hcases with ⟨-, h⟩ | ⟨hlt, hx0, h, -⟩
    · exact le_of_eq h
    · have hdnn : ¬ d < 0 := by
        intro hneg
        rw [if_pos hneg] at hlt
        exact lt_irrefl _ hlt
      rw [if_neg hdnn] at hlt h
      have hxpos : 0 < r.xSize := lt_of_le_of_ne hx (Ne.symm hx0)
      rw [h, tdiv_tdiv_eq d r.xSize (not_lt.mp hdnn) hxpos]
      exact le_of_lt (trimmed_lt d r.xSize r.ySize hxpos hlt)
  · rw [hxs, hys]
    rcases hcases with ⟨hge, h⟩ | ⟨hlt, hx0, h, -⟩
    · rw [h]
      exact not_lt.mp hge
    · have hdnn : ¬ d < 0 := by
        intro hneg
        rw [if_pos hneg] at hlt
        exact lt_irrefl _ hlt
      rw [if_neg hdnn] at hlt h ⊢
      have hxpos : 0 < r.xSize := lt_of_le_of_ne hx (Ne.symm hx0)
      rw [h, tdiv_tdiv_eq d r.xSize (not_lt.mp hdnn) hxpos]
      exact trimmed_fits d r.xSize hxpos

/-- The run of a 10 by 20 map on 250 decoded bytes keeps the invariant: the
name is resolved, `ySize` is 12, and 240 bytes fit into 250. -/
theorem ResourceMap_Load_invariant_witness :
    ((mapOf "map.eni" 0 comprType.ENIGMA 10 12 "map.eni").saveName ≠ "" ↔
      ((mapOf "map.eni" 0 comprType.ENIGMA 10 20 "").saveName ≠ "" ∨
        (mapOf "map.eni" 0 comprType.ENIGMA 10 20 "").offset ≠ 0 ∨
        (mapOf "map.eni" 0 comprType.ENIGMA 10 20 "").name ≠ "")) ∧
    (mapOf "map.eni" 0 comprType.ENIGMA 10 12 "map.eni").xSize = 10 ∧
    (mapOf "map.eni" 0 comprType.ENIGMA 10 12 "map.eni").ySize ≤ 20 ∧
    ∃ d dst,
      (mapOf "map.eni" 0 comprType.ENIGMA 10 20 "").toResource.DecompressToFile
        (Codecs.const 250) FileSystem.empty uninitCD FILE.empty = some (d, dst) ∧
      2 * (mapOf "map.eni" 0 comprType.ENIGMA 10 12 "map.eni").xSize
          * (mapOf "map.eni" 0 comprType.ENIGMA 10 12 "map.eni").ySize
        ≤ (if d < 0 then 2 * 10 * 20 else d) :=
  ResourceMap_Load_invariant (Codecs.const 250) FileSystem.empty uninitCD
    (mapOf "map.eni" 0 comprType.ENIGMA 10 20 "") FILE.empty
    { term := Termination.returned,
      self := mapOf "map.eni" 0 comprType.ENIGMA 10 12 "map.eni",
      dst := FILE.empty, shown := [mapTrimBox] }
    (by decide) (by decide) (by decide) (by decide) rfl

/-- C2 as stated fails.  A map resource of 2 by 3 cells with an empty source
path, offset 0, no configured `saveName` and compression `NONE`: no file has
the empty path, so the decode fails, the blank template of 12 bytes is
created, `Load` returns, and `saveName` is still empty. -/
theorem ResourceMap_Load_saveName_empty :
    (0 : Int) ≤ (mapOf "" 0 comprType.NONE 2 3 "").xSize ∧
    (0 : Int) ≤ (mapOf "" 0 comprType.NONE 2 3 "").ySize ∧
    ResourceMap.Load (Codecs.const 0) FileSystem.empty uninitCD
        (mapOf "" 0 comprType.NONE 2 3 "") FILE.empty
      = some { term := Termination.returned, self := mapOf "" 0 comprType.NONE 2 3 "",
               dst := { data := [0, 0, 0, 0, 0, 0, 0, 0, 0, 0, 0, 0], pos := 12 },
               shown := [mapBlankBox] } ∧
    (mapOf "" 0 comprType.NONE 2 3 "").saveName = "" := by
  decide

/-! ## Rejection, art and palettes -/

/-- C5. Illegal compressions are rejected before any decode.  For every
environment (codecs, file system, memory) and destination: `ResourceArt::Load`
and `ResourcePal::Load` on a resource with compression `INVALID`, and
`ResourceMap::Load` on a resource with compression `INVALID` or
`KID_CHAMELEON`, show their Error box and leave through `exit(1)` with the
resource and the destination exactly as they were.  The result names neither
the codecs nor the file system: no decode took place. -/
theorem Load_rejects_illegal_compression (c : Codecs) (fs : FileSystem) (uninit : Nat → Nat)
    (filename : FILE) :
    (∀ r : ResourceArt, r.compression = comprType.INVALID →
      ResourceArt.Load c fs uninit r filename
        = some { term := Termination.exited 1, self := r, dst := filename,
                 shown := [artInvalidBox] }) ∧
    (∀ r : ResourceMap,
      r.compression = comprType.INVALID ∨ r.compression = comprType.KID_CHAMELEON →
      ResourceMap.Load c fs uninit r filename
        = some { term := Termination.exited 1, self := r, dst := filename,
                 shown := [mapInvalidBox] }) ∧
    (∀ r : ResourcePal, r.compression = comprType.INVALID →
      ResourcePal.Load c fs uninit r filename
        = some { term := Termination.exited 1, self := r, dst := filename,
                 shown := [palInvalidBox] }) := by
  refine ⟨?_, ?_, ?_⟩
  · intro r h
    simp [ResourceArt.Load, h]
  · intro r h
    simp [ResourceMap.Load, h]
  · intro r h
    simp [ResourcePal.Load, h]

/-- A freshly constructed art resource and a Kid Chameleon map are rejected
although the file exists and the decoders would succeed. -/
theorem Load_rejects_illegal_compression_witness :
    ResourceArt.Load (Codecs.const 640) (FileSystem.single "art.bin" [1, 2]) uninitCD
        ResourceArt.new { data := [5], pos := 1 }
      = some { term := Termination.exited 1, self := ResourceArt.new,
               dst := { data := [5], pos := 1 }, shown := [artInvalidBox] } ∧
    ResourceMap.Load (Codecs.const 640) (FileSystem.single "art.bin" [1, 2]) uninitCD
        (mapOf "art.bin" 0 comprType.KID_CHAMELEON 2 3 "") { data := [5], pos := 1 }
      = some { term := Termination.exited 1,
               self := mapOf "art.bin" 0 comprType.KID_CHAMELEON 2 3 "",
               dst := { data := [5], pos := 1 }, shown := [mapInvalidBox] } :=
  ⟨(Load_rejects_illegal_compression (Codecs.const 640) (FileSystem.single "art.bin" [1, 2])
      uninitCD { data := [5], pos := 1 }).1 ResourceArt.new rfl,
   (Load_rejects_illegal_compression (Codecs.const 640) (FileSystem.single "art.bin" [1, 2])
      uninitCD { data := [5], pos := 1 }).2.1
      (mapOf "art.bin" 0 comprType.KID_CHAMELEON 2 3 "") (Or.inr rfl)⟩

/-- C9. The tile count of `ResourceArt::Load`: for every art resource with a
compression other than `INVALID` whose decode gives `d`.  When `d < 0`, `Load`
shows the Error box and leaves through `exit(1)`, `tileAmount` untouched.
Otherwise `Load` returns with `tileAmount = d / 0x20`, rounded down, and no box
is shown. -/
theorem ResourceArt_Load_tileAmount (c : Codecs) (fs : FileSystem) (uninit : Nat → Nat)
    (r : ResourceArt) (filename : FILE) (d : Int) (dst : FILE)
    (hc : r.compression ≠ comprType.INVALID)
    (hd : r.toResource.DecompressToFile c fs uninit filename = some (d, dst)) :
    (d < 0 →
      ResourceArt.Load c fs uninit r filename
        = some { term := Termination.exited 1, self := r, dst := dst,
                 shown := [artDecompressBox] }) ∧
    (0 ≤ d →
      ResourceArt.Load c fs uninit r filename
        = some { term := Termination.returned, self := { r with tileAmount := d / 0x20 },
                 dst := dst, shown := [] }) := by
  have hint := DecompressToFile_int c fs uninit r.toResource filename d dst hd
  constructor
  · intro hneg
    simp [ResourceArt.Load, hc, hd, hint, hneg]
  · intro hnn
    have hdiv : Int.tdiv d 0x20 = d / 0x20 := Int.tdiv_eq_ediv hnn (by decide)
    simp [ResourceArt.Load, hc, hd, hint, not_lt.mpr hnn, hdiv]

/-- A decoded length of 640 gives 20 tiles, and so does a decoded length of
650; a failed decode is fatal. -/
theorem ResourceArt_Load_tileAmount_witness :
    ResourceArt.Load (Codecs.const 640) FileSystem.empty uninitCD
        { ResourceArt.new with name := "art.nem", compression := comprType.NEMESIS } FILE.empty
      = some { term := Termination.returned,
               self := { ResourceArt.new with
                          name := "art.nem", compression := comprType.NEMESIS,
                          tileAmount := 20 },
               dst := FILE.empty, shown := [] } ∧
    ResourceArt.Load (Codecs.const 650) FileSystem.empty uninitCD
        { ResourceArt.new with name := "art.kc", compression := comprType.KID_CHAMELEON }
        FILE.empty
      = some { term := Termination.returned,
               self := { ResourceArt.new with
                          name := "art.kc", compression := comprType.KID_CHAMELEON,
                          tileAmount := 20 },
               dst := FILE.empty, shown := [] } ∧
    ResourceArt.Load (Codecs.const 0) FileSystem.empty uninitCD
        { ResourceArt.new with name := "art.bin", compression := comprType.NONE } FILE.empty
      = some { term := Termination.exited 1,
               self := { ResourceArt.new with name := "art.bin", compression := comprType.NONE },
               dst := FILE.empty, shown := [artDecompressBox] } :=
  ⟨(ResourceArt_Load_tileAmount (Codecs.const 640) FileSystem.empty uninitCD
      { ResourceArt.new with name := "art.nem", compression := comprType.NEMESIS } FILE.empty
      640 FILE.empty (by decide) rfl).2 (by decide),
   (ResourceArt_Load_tileAmount (Codecs.const 650) FileSystem.empty uninitCD
      { ResourceArt.new with name := "art.kc", compression := comprType.KID_CHAMELEON }
      FILE.empty 650 FILE.empty (by decide) rfl).2 (by decide),
   (ResourceArt_Load_tileAmount (Codecs.const 0) FileSystem.empty uninitCD
      { ResourceArt.new with name := "art.bin", compression := comprType.NONE } FILE.empty
      (-1) FILE.empty (by decide) (by decide)).1 (by decide)⟩

/-! ## Saving -/

/-- C8, as the code has it.  For every resource with compression `NONE`, every
file system and every working path and destination path that name different
files, where the working file exists and the system lets it be renamed to the
destination: after `Save` the working path has no file, the destination holds
exactly the bytes the working file held before the call (in place of any
previous destination content), and every other file is as it was. -/
theorem Resource_Save_NONE_moves (c : Codecs) (r : Resource) (fs : FileSystem)
    (filename dstfilename : String) (bytes : List Nat)
    (hnone : r.compression = comprType.NONE)
    (hne : fs.resolve filename ≠ fs.resolve dstfilename)
    (hwork : fs.fopen filename = some bytes)
    (hren : fs.renames (fs.resolve filename) (fs.resolve dstfilename) = true) :
    (r.Save c fs filename dstfilename).fopen filename = none ∧
    (r.Save c fs filename dstfilename).fopen dstfilename = some bytes ∧
    (∀ l, l ≠ fs.resolve filename → l ≠ fs.resolve dstfilename →
      (r.Save c fs filename dstfilename).content l = fs.content l) ∧
    (r.Save c fs filename dstfilename).resolve = fs.resolve := by
  have hsave : r.Save c fs filename dstfilename
      = { fs with
          content := fun l =>
            if l = fs.resolve filename then none
            else if l = fs.resolve dstfilename then some bytes else fs.content l } := by
    unfold FileSystem.fopen at hwork
    simp only [Resource.Save, Resource.CompressFile, hnone, rename, remove, if_neg hne, hwork,
      hren, if_true]
    congr 1
    funext l
    by_cases h1 : l = fs.resolve filename
    · simp [h1, hne]
    · by_cases h2 : l = fs.resolve dstfilename <;> simp [h1, h2]
  rw [hsave]
  refine ⟨by simp [FileSystem.fopen], ?_, ?_, rfl⟩
  · simp [FileSystem.fopen, Ne.symm hne]
  · intro l h1 h2
    simp [h1, h2]

/-- The working file replaces the old destination and is gone itself; the ROM
is untouched. -/
theorem Resource_Save_NONE_moves_witness :
    ({ Resource.new with compression := comprType.NONE }.Save (Codecs.const 0)
        FileSystem.project "work.tmp" "./map.bin").fopen "work.tmp" = none ∧
    ({ Resource.new with compression := comprType.NONE }.Save (Codecs.const 0)
        FileSystem.project "work.tmp" "./map.bin").fopen "./map.bin" = some [1, 2, 3] ∧
    ({ Resource.new with compression := comprType.NONE }.Save (Codecs.const 0)
        FileSystem.project "work.tmp" "./map.bin").content "rom.bin"
      = FileSystem.project.content "rom.bin" :=
  ⟨(Resource_Save_NONE_moves (Codecs.const 0) { Resource.new with compression := comprType.NONE }
      FileSystem.project "work.tmp" "./map.bin" [1, 2, 3] rfl (by decide) (by decide)
      (by decide)).1,
   (Resource_Save_NONE_moves (Codecs.const 0) { Resource.new with compression := comprType.NONE }
      FileSystem.project "work.tmp" "./map.bin" [1, 2, 3] rfl (by decide) (by decide)
      (by decide)).2.1,
   (Resource_Save_NONE_moves (Codecs.const 0) { Resource.new with compression := comprType.NONE }
      FileSystem.project "work.tmp" "./map.bin" [1, 2, 3] rfl (by decide) (by decide)
      (by decide)).2.2.1 "rom.bin" (by decide) (by decide)⟩

/-- C8 as stated fails.  (1) The working path is the destination path: the
file `"map.bin"` holds one byte; `Save("map.bin", "map.bin")` with compression
`NONE` removes the destination, the rename then finds no working file, and
afterwards the destination holds nothing.  (2) The same with `"./map.bin"` as
the destination, another path of the same file.  (3) The rename fails: the
destination is the empty path; the result of `rename` is ignored, the working
file `"work.tmp"` is removed, and its three bytes are in no file. -/
theorem Resource_Save_NONE_loses_bytes :
    (FileSystem.project.fopen "map.bin" = some [9] ∧
      ({ Resource.new with compression := comprType.NONE }.Save (Codecs.const 0)
        FileSystem.project "map.bin" "map.bin").fopen "map.bin" = none) ∧
    (FileSystem.project.fopen "map.bin" = some [9] ∧
      ({ Resource.new with compression := comprType.NONE }.Save (Codecs.const 0)
        FileSystem.project "map.bin" "./map.bin").fopen "./map.bin" = none) ∧
    (FileSystem.project.fopen "work.tmp" = some [1, 2, 3] ∧
      ({ Resource.new with compression := comprType.NONE }.Save (Codecs.const 0)
        FileSystem.project "work.tmp" "").fopen "work.tmp" = none ∧
      ({ Resource.new with compression := comprType.NONE }.Save (Codecs.const 0)
        FileSystem.project "work.tmp" "").fopen "" = none) := by
  decide

/-- C10, as the code has it.  For every resource with compression
`KID_CHAMELEON` or `INVALID`, every codecs, file system, working path and
destination path: `Save` is the removal of the working file and nothing else,
whatever the encoders are (none is invoked).  So the working path has no file
afterwards, every other file is as it was, in particular the destination when
it names a different file than the working path; when the two paths name the
same file, the destination is deleted. -/
theorem Resource_Save_without_encoder (c : Codecs) (r : Resource) (fs : FileSystem)
    (filename dstfilename : String)
    (hcompr : r.compression = comprType.KID_CHAMELEON ∨ r.compression = comprType.INVALID) :
    r.Save c fs filename dstfilename = remove fs filename ∧
    (r.Save c fs filename dstfilename).fopen filename = none ∧
    (∀ l, l ≠ fs.resolve filename →
      (r.Save c fs filename dstfilename).content l = fs.content l) ∧
    (fs.resolve dstfilename ≠ fs.resolve filename →
      (r.Save c fs filename dstfilename).fopen dstfilename = fs.fopen dstfilename) ∧
    (fs.resolve dstfilename = fs.resolve filename →
      (r.Save c fs filename dstfilename).fopen dstfilename = none) := by
  have hsave : r.Save c fs filename dstfilename = remove fs filename := by
    rcases hcompr with h | h <;> simp [Resource.Save, Resource.CompressFile, h]
  rw [hsave]
  refine ⟨rfl, by simp [remove, FileSystem.fopen], ?_, ?_, ?_⟩
  · intro l hl
    simp [remove, hl]
  · intro hne
    simp [remove, FileSystem.fopen, hne]
  · intro heq
    simp [remove, FileSystem.fopen, heq]

/-- Saving a Kid Chameleon resource deletes the working file and leaves the
old destination content in place. -/
theorem Resource_Save_without_encoder_witness :
    ({ Resource.new with compression := comprType.KID_CHAMELEON }.Save (Codecs.const 0)
        FileSystem.project "work.tmp" "./map.bin").fopen "work.tmp" = none ∧
    ({ Resource.new with compression := comprType.KID_CHAMELEON }.Save (Codecs.const 0)
        FileSystem.project "work.tmp" "./map.bin").fopen "./map.bin"
      = FileSystem.project.fopen "./map.bin" :=
  ⟨(Resource_Save_without_encoder (Codecs.const 0)
      { Resource.new with compression := comprType.KID_CHAMELEON }
      FileSystem.project "work.tmp" "./map.bin" (Or.inl rfl)).2.1,
   (Resource_Save_without_encoder (Codecs.const 0)
      { Resource.new with compression := comprType.KID_CHAMELEON }
      FileSystem.project "work.tmp" "./map.bin" (Or.inl rfl)).2.2.2.1 (by decide)⟩

/-- C10 as stated fails when the working path and the destination path name
the same file.  The file `"map.bin"` holds one byte; `Save("map.bin",
"map.bin")` with compression `KID_CHAMELEON` encodes nothing and removes the
working file, which is the destination: it is not left as it was.  The same
happens with `"./map.bin"` as the destination, a different path of the same
file. -/
theorem Resource_Save_without_encoder_same_file :
    (FileSystem.project.fopen "map.bin" = some [9] ∧
      ({ Resource.new with compression := comprType.KID_CHAMELEON }.Save (Codecs.const 0)
        FileSystem.project "map.bin" "map.bin").fopen "map.bin" = none) ∧
    (FileSystem.project.fopen "./map.bin" = some [9] ∧
      ({ Resource.new with compression := comprType.KID_CHAMELEON }.Save (Codecs.const 0)
        FileSystem.project "map.bin" "./map.bin").fopen "./map.bin" = none) := by
  decide

end CaptainPlaneEd
